import Mathlib

/-!
# Verification of the trano polling engine and reconciler

Shallow embedding of the trano train-tracking service, translated from:

* `src/internal/poller/poller.go` (poll-cycle handlers, status map, cursor logic),
* `src/unnamed/part_000` first document (the `processValidResponse` revision that
  matches the current SQL in `src/internal/db/queries/queries_poller.sql`:
  snapping, static-error reset, segment-station fallback),
* `src/internal/db/queries/queries_poller.sql` (`ListRunsToPoll`,
  `UpdateRunStatus`, `LogRunLocation`, `ClearRunningDayBitForDate`),
* `src/internal/db/types.go` (`ErrorCounter`, `RunErrors`),
* `src/internal/wimt/api.go` (`generateWID`, `FetchTrainStatus`).

Modelling conventions:

* Go `float64` values are modelled as exact rationals (`ℚ`); every branch
  condition the claims touch compares against short decimal constants where the
  rational and binary-float evaluations agree on the inputs considered.
* Go `int64`/`int` are modelled as `ℤ`; `strconv.Atoi`'s 64-bit range check is
  kept explicitly.
* RFC3339 instants are abstracted by a `TimeModel`: a parse/format pair on an
  integer instant type satisfying the round-trip law that Go's
  `time.Parse`/`Format` pair enjoys for a fixed location.
* SQLite's 64-bit `~` applied under `&` to the non-negative bitmap is modelled
  as XOR with the 64-bit all-ones mask.
-/

namespace Trano

/-! ## Decimal rendering and parsing (`fmt %d`, `strconv.Atoi`) -/

/-- Little-endian decimal digits of a natural number (`[]` for zero). -/
def natDigitsRev (n : ℕ) : List ℕ :=
  if _ : n = 0 then [] else (n % 10) :: natDigitsRev (n / 10)
termination_by n
decreasing_by exact Nat.div_lt_self (Nat.pos_of_ne_zero (by assumption)) (by decide)

/-- The character for a single decimal digit. -/
def digitChar (d : ℕ) : Char := Char.ofNat (48 + d)

/-- Decimal rendering of a natural number, as Go's `fmt.Sprintf("%d", ·)`. -/
def natDecimal (n : ℕ) : String :=
  if n = 0 then "0" else ((natDigitsRev n).reverse.map digitChar).asString

/-- Decimal rendering of an integer, as Go's `fmt.Sprintf("%d", ·)`. -/
def intDecimal (i : ℤ) : String :=
  if i < 0 then "-" ++ natDecimal i.natAbs else natDecimal i.natAbs

/-- Is `c` an ASCII decimal digit? -/
def isDigitChar (c : Char) : Bool := 48 ≤ c.toNat && c.toNat ≤ 57

/-- Numeric value of a decimal digit character. -/
def digitVal (c : Char) : ℕ := c.toNat - 48

/-- Value of a most-significant-first digit-character list. -/
def digitsVal (cs : List Char) : ℕ := cs.foldl (fun a c => a * 10 + digitVal c) 0

/-- Parse a non-empty all-digit character list. -/
def parseNatChars (cs : List Char) : Option ℕ :=
  if cs = [] then none else if cs.all isDigitChar then some (digitsVal cs) else none

def int64Max : ℤ := 9223372036854775807

def int64Min : ℤ := -9223372036854775808

/-- The `int` range check performed by `strconv.Atoi` (64-bit platform). -/
def int64Check (v : ℤ) : Option ℤ :=
  if int64Min ≤ v ∧ v ≤ int64Max then some v else none

/-- Embedding of Go's `strconv.Atoi`: optional sign, all digits, 64-bit range. -/
def goAtoi (s : String) : Option ℤ :=
  match s.toList with
  | [] => none
  | c :: cs =>
    if c = '-' then (parseNatChars cs).bind (fun n => int64Check (-(n : ℤ)))
    else if c = '+' then (parseNatChars cs).bind (fun n => int64Check (n : ℤ))
    else (parseNatChars (c :: cs)).bind (fun n => int64Check (n : ℤ))

/-! ## String helpers (`strings` package) -/

/-- Characters recognised by Go's `unicode.IsSpace` (the White_Space property). -/
def goIsSpace (c : Char) : Bool :=
  (9 ≤ c.toNat && c.toNat ≤ 13) || c.toNat = 32 || c.toNat = 133 || c.toNat = 160 ||
  c.toNat = 5760 || (8192 ≤ c.toNat && c.toNat ≤ 8202) || c.toNat = 8232 ||
  c.toNat = 8233 || c.toNat = 8239 || c.toNat = 8287 || c.toNat = 12288

/-- Embedding of Go's `strings.TrimSpace`. -/
def goTrimSpace (s : String) : String :=
  ((s.toList.dropWhile goIsSpace).reverse.dropWhile goIsSpace).reverse.asString

/-- Lower-case one character (ASCII range; the status keywords are ASCII). -/
def goLowerChar (c : Char) : Char :=
  if 65 ≤ c.toNat ∧ c.toNat ≤ 90 then Char.ofNat (c.toNat + 32) else c

/-- Embedding of Go's `strings.ToLower`. -/
def goToLower (s : String) : String := (s.toList.map goLowerChar).asString

/-- Embedding of Go's `strings.Contains`. -/
def goContains (s sub : String) : Bool :=
  s.toList.tails.any (fun t => sub.toList.isPrefixOf t)

/-- First field of `strings.Split(s, "|")`: the prefix before the first pipe. -/
def firstPipeField (s : String) : String :=
  (s.toList.takeWhile (fun c => c ≠ '|')).asString

/-- `strconv.Atoi(strings.Split(s, "|")[0])` as used by the cursor logic. -/
def parseLeadInt (s : String) : Option ℤ := goAtoi (firstPipeField s)

/-! ## Numeric conversion -/

/-- Go's `int64(f)` conversion: truncation toward zero. -/
def truncTowardZero (q : ℚ) : ℤ := if 0 ≤ q then ⌊q⌋ else -⌊-q⌋

/-! ## Data model (`src/internal/db/types.go`, `schema/03_runs.sql`) -/

/-- `db.ErrorCounter` from `types.go`. -/
structure ErrorCounter where
  count : ℤ
  lastSeen : String
deriving DecidableEq

/-- `db.RunErrors` from `types.go`. `Scan` guarantees `StaticResponse` is
never nil, so it is a plain counter; the other two stay optional. -/
structure RunErrors where
  staticResponse : ErrorCounter
  apiError : Option ErrorCounter
  unknownError : Option ErrorCounter
deriving DecidableEq

/-- The mutable columns of one `train_runs` row (those the poller touches).
`runDate` is the calendar-day number of the `run_date` text column. -/
structure RunState where
  runId : String
  runDate : ℤ
  hasStarted : ℤ
  hasArrived : ℤ
  currentStatus : String
  lastKnownLatU6 : Option ℤ
  lastKnownLngU6 : Option ℤ
  lastKnownSnappedLatU6 : Option ℤ
  lastKnownSnappedLngU6 : Option ℤ
  lastRouteFracU4 : Option ℤ
  lastBearingDeg : Option ℤ
  lastKnownDistanceKmU4 : Option ℤ
  lastUpdatedSno : Option String
  errors : RunErrors
  lastUpdateTimestampIso : Option String
deriving DecidableEq

/-- One `train_run_locations` row. -/
structure LocRow where
  runId : String
  latU6 : ℤ
  lngU6 : ℤ
  snappedLatU6 : Option ℤ
  snappedLngU6 : Option ℤ
  distanceKmU4 : ℤ
  segmentStationCode : String
  atStation : ℤ
  timestampIso : String
deriving DecidableEq

/-- The state a reconciliation transition can touch: the run row, the
schedule's `running_days_bitmap`, and the run's location-log rows. -/
structure SysState where
  run : RunState
  runningDaysBitmap : ℕ
  locLog : List LocRow
deriving DecidableEq

/-! ## Upstream response shape (`wimt.APIResponse`, `wimt.DaySchedule`) -/

/-- The `wimt.DaySchedule` fields the reconciler reads. -/
structure DaySchedule where
  sno : ℤ
  stationCode : String
  schArrivalTm : ℤ
  actualArrivalTm : ℤ
  schDepartureTm : ℤ
  actualDepartureTm : ℤ
  curStn : Option Bool
deriving DecidableEq

/-- The `wimt.APIResponse` fields the reconciler reads. -/
structure APIResponse where
  runningStatus : String
  runningStatusAlt : String
  lastUpdateIsoDate : String
  lat : Option ℚ
  lng : Option ℚ
  distance : ℚ
  departedCurStn : Bool
  daysSchedule : List DaySchedule
deriving DecidableEq

/-! ## Time abstraction

Go's `time.Parse(time.RFC3339, ·)` / `t.In(loc).Format(time.RFC3339)` pair is
abstracted as a parse/format pair on integer instants satisfying the
round-trip law the real pair enjoys for a fixed location. -/

structure TimeModel where
  parse : String → Option ℤ
  format : ℤ → String

/-- The laws that Go's fixed-location RFC3339 parse/format pair satisfies:
formatting an instant parses back to it, and a formatted instant is never the
empty string.  Hypotheses of theorems that rely on them state them
explicitly. -/
def TimeModel.RoundTrip (tm : TimeModel) : Prop :=
  (∀ t : ℤ, tm.parse (tm.format t) = some t) ∧ ∀ t : ℤ, tm.format t ≠ ""

/-! ## Store operations (`queries_poller.sql`) -/

/-- SQL `COALESCE(@param, column)`: a non-null parameter replaces the column. -/
def coalesce {α : Type} (p old : Option α) : Option α :=
  match p with
  | some v => some v
  | none => old

/-- The named parameters of `UpdateRunStatus` (`queries_poller.sql` lines
86-104). A `none` field is a NULL parameter and leaves the column intact. -/
structure UpdateParams where
  hasStarted : Option ℤ
  hasArrived : Option ℤ
  currentStatus : Option String
  latU6 : Option ℤ
  lngU6 : Option ℤ
  snappedLatU6 : Option ℤ
  snappedLngU6 : Option ℤ
  routeFracU4 : Option ℤ
  bearingDeg : Option ℤ
  distanceKmU4 : Option ℤ
  errors : Option RunErrors
  lastUpdatedSno : Option String
  lastUpdateIso : Option String
deriving DecidableEq

/-- All-NULL parameter record. -/
def noUpdate : UpdateParams :=
  ⟨none, none, none, none, none, none, none, none, none, none, none, none, none⟩

/-- `UpdateRunStatus`: partial, coalescing update of the run row. -/
def updateRunStatus (r : RunState) (p : UpdateParams) : RunState :=
  { r with
    hasStarted := p.hasStarted.getD r.hasStarted
    hasArrived := p.hasArrived.getD r.hasArrived
    currentStatus := p.currentStatus.getD r.currentStatus
    lastKnownLatU6 := coalesce p.latU6 r.lastKnownLatU6
    lastKnownLngU6 := coalesce p.lngU6 r.lastKnownLngU6
    lastKnownSnappedLatU6 := coalesce p.snappedLatU6 r.lastKnownSnappedLatU6
    lastKnownSnappedLngU6 := coalesce p.snappedLngU6 r.lastKnownSnappedLngU6
    lastRouteFracU4 := coalesce p.routeFracU4 r.lastRouteFracU4
    lastBearingDeg := coalesce p.bearingDeg r.lastBearingDeg
    lastKnownDistanceKmU4 := coalesce p.distanceKmU4 r.lastKnownDistanceKmU4
    errors := p.errors.getD r.errors
    lastUpdatedSno := coalesce p.lastUpdatedSno r.lastUpdatedSno
    lastUpdateTimestampIso := coalesce p.lastUpdateIso r.lastUpdateTimestampIso }

/-- `LogRunLocation`: insert with `ON CONFLICT(run_id, timestamp_ISO) DO
NOTHING`. -/
def logRunLocation (log : List LocRow) (row : LocRow) : List LocRow :=
  if log.any (fun r => decide (r.runId = row.runId ∧ r.timestampIso = row.timestampIso))
  then log else log ++ [row]

/-- SQLite weekday (`strftime('%w', ·)`, 0 = Sunday) of a calendar-day number
counted from 1970-01-01 (a Thursday). -/
def weekdayOf (d : ℤ) : ℕ := ((d + 4) % 7).toNat

/-- `ClearRunningDayBitForDate`: mask off bit `w` of the bitmap when it is
set.  SQLite's 64-bit `~(1 << w)` under `&` with the non-negative bitmap is
the XOR of the 64-bit all-ones mask with `1 <<< w`. -/
def clearRunningDayBit (bitmap : ℕ) (w : ℕ) : ℕ :=
  if bitmap &&& (1 <<< w) ≠ 0 then bitmap &&& ((2 ^ 64 - 1) ^^^ (1 <<< w)) else bitmap

/-! ## Status resolution (`processValidResponse`, status map) -/

/-- `RunStatus` from `processValidResponse`. -/
structure RunStatus where
  canonical : String
  isTerminal : Bool
deriving DecidableEq

/-- The `statusMap` literal from `processValidResponse`. -/
def statusMapLookup (s : String) : Option RunStatus :=
  if s = "end" then some ⟨"completed", true⟩
  else if s = "cancelled" then some ⟨"cancelled", true⟩
  else if s = "terminated" then some ⟨"terminated", true⟩
  else if s = "rescheduled" then some ⟨"rescheduled", false⟩
  else none

/-- The normalised raw status: lower-cased, trimmed `running_status`, falling
back to the alternate `"running status"` key when the first is empty. -/
def rawStatusOf (data : APIResponse) : String :=
  let raw := goToLower (goTrimSpace data.runningStatus)
  if raw = "" then goToLower (goTrimSpace data.runningStatusAlt) else raw

/-- Canonical status resolution from `processValidResponse`. -/
def resolveStatus (data : APIResponse) : RunStatus :=
  let raw := rawStatusOf data
  match statusMapLookup raw with
  | some st => st
  | none => if raw = "" then ⟨"unknown", false⟩ else ⟨raw, false⟩

/-! ## Cursor logic (`SnoStrFromDaySchedule` and the `finalSNO` switch) -/

/-- `SnoStrFromDaySchedule` (`poller.go` lines 548-581): `none` models the
error return. -/
def snoStrFromDaySchedule (c : DaySchedule) : Option String :=
  if c.sno < 0 ∨ c.stationCode = "" ∨ c.schArrivalTm ≤ 0 ∨ c.actualArrivalTm < 0 ∨
     c.schDepartureTm ≤ 0 ∨ c.actualDepartureTm < 0 then none
  else some (intDecimal c.sno ++ "|" ++ c.stationCode ++ "|" ++
    intDecimal c.schArrivalTm ++ "|" ++ intDecimal c.actualArrivalTm ++ "|" ++
    intDecimal c.schDepartureTm ++ "|" ++ intDecimal c.actualDepartureTm)

/-- The first day-schedule entry whose `curStn` flag is set. -/
def currentStation (data : APIResponse) : Option DaySchedule :=
  data.daysSchedule.find? (fun d => d.curStn == some true)

/-- The `finalSNO` switch of `processValidResponse`: accept the incoming
cursor only when the existing one is absent or empty, or the incoming
current-station ordinal strictly exceeds the parsed leading integer of the
existing cursor.  (The `len(existingParts) == 0` branch of the source is dead:
`strings.Split` never returns an empty slice.) -/
def computeFinalSno (existing : Option String) (data : APIResponse) : Option String :=
  match currentStation data with
  | none => none
  | some c =>
    if c.sno < 0 ∨ c.stationCode = "" then none
    else
      match snoStrFromDaySchedule c with
      | none => none
      | some incoming =>
        match existing with
        | none => some incoming
        | some e =>
          if e = "" then some incoming
          else
            match parseLeadInt e with
            | none => none
            | some k => if c.sno > k then some incoming else none

/-! ## Valid-response reconciliation (`processValidResponse`, the revision in
`src/unnamed/part_000` lines 377-627 that matches the current
`queries_poller.sql`) -/

/-- The parsed incoming instant: empty `lastUpdateIsoDate` or a parse failure
yields `none`. -/
def apiInstantOf (tm : TimeModel) (data : APIResponse) : Option ℤ :=
  if data.lastUpdateIsoDate = "" then none else tm.parse data.lastUpdateIsoDate

/-- The `locationAllowed` gate: an incoming instant is required, and it must be
strictly after the stored `last_update_timestamp_ISO`; an absent, empty or
unparseable stored value lets the incoming one through. -/
def locationAllowedOf (tm : TimeModel) (r : RunState) (apiT : Option ℤ) : Bool :=
  match apiT with
  | none => false
  | some t =>
    match r.lastUpdateTimestampIso with
    | none => true
    | some dbs =>
      if dbs = "" then true
      else
        match tm.parse dbs with
        | none => true
        | some dbt => decide (dbt < t)

/-- The coordinate validation of `processValidResponse`: not both zero, and
inside the service-area bounding box. -/
def coordsInBox (lat lng : ℚ) : Bool :=
  decide (¬(lat = 0 ∧ lng = 0) ∧ 6 ≤ lat ∧ lat ≤ 37 ∧ 68 ≤ lng ∧ lng ≤ 97)

/-- The combined presence-and-bounds coordinate check: both coordinates
present and inside the box, not both zero. -/
def coordsOk (d : APIResponse) : Bool :=
  match d.lat, d.lng with
  | some la, some ln => coordsInBox la ln
  | _, _ => false

/-- Result row of the store's `GetRunSnap` geometry projection. -/
structure SnapResult where
  snappedLatU6 : ℤ
  snappedLngU6 : ℤ
  routeFracU4 : ℤ
  bearingDeg : ℤ
deriving DecidableEq

/-- The parameters of the status-only first `UpdateRunStatus` of
`processValidResponse` (part_000 lines 440-482): canonical status,
terminality, static-error reset, cursor and timestamp. -/
def validStatusParams (tm : TimeModel) (s : SysState) (d : APIResponse) : UpdateParams :=
  { noUpdate with
    hasStarted := some 1
    hasArrived := some (if (resolveStatus d).isTerminal then 1 else 0)
    currentStatus := some (resolveStatus d).canonical
    lastUpdatedSno := computeFinalSno s.run.lastUpdatedSno d
    lastUpdateIso := (apiInstantOf tm d).map tm.format
    errors := some { s.run.errors with
      staticResponse := { s.run.errors.staticResponse with count := 0 } } }

/-- The location-log row inserted by `processValidResponse` (part_000 lines
579-592): raw and snapped coordinates, segment station (empty string when no
current-station entry exists), `at_station = ¬departedCurStn`. -/
def validLocRow (tm : TimeModel) (snap : Option SnapResult) (s : SysState)
    (d : APIResponse) (latVal lngVal : ℚ) : LocRow :=
  { runId := s.run.runId
    latU6 := truncTowardZero (latVal * 1000000)
    lngU6 := truncTowardZero (lngVal * 1000000)
    snappedLatU6 := snap.map (fun sn => sn.snappedLatU6)
    snappedLngU6 := snap.map (fun sn => sn.snappedLngU6)
    distanceKmU4 := truncTowardZero (d.distance * 10000)
    segmentStationCode := match currentStation d with
      | none => ""
      | some c => c.stationCode
    atStation := if d.departedCurStn then 0 else 1
    timestampIso := ((apiInstantOf tm d).map tm.format).getD "" }

/-- The parameters of the location `UpdateRunStatus` of `processValidResponse`
(part_000 lines 597-615), issued only when snapping succeeded. -/
def validLocParams (tm : TimeModel) (sn : SnapResult) (d : APIResponse)
    (latVal lngVal : ℚ) : UpdateParams :=
  { noUpdate with
    latU6 := some (truncTowardZero (latVal * 1000000))
    lngU6 := some (truncTowardZero (lngVal * 1000000))
    snappedLatU6 := some sn.snappedLatU6
    snappedLngU6 := some sn.snappedLngU6
    routeFracU4 := some sn.routeFracU4
    bearingDeg := some sn.bearingDeg
    distanceKmU4 := some (truncTowardZero (d.distance * 10000))
    lastUpdateIso := (apiInstantOf tm d).map tm.format }

/-- `processValidResponse` as a state transition.  `snap` is the outcome of the
store's `GetRunSnap` geometry projection for the incoming coordinates (`none`
models both "no geometry" and a snapping error, after which the code continues
with raw coordinates only). -/
def processValidResponse (tm : TimeModel) (snap : Option SnapResult)
    (s : SysState) (data : APIResponse) : SysState :=
  let r1 := updateRunStatus s.run (validStatusParams tm s data)
  match data.lat, data.lng with
  | some latVal, some lngVal =>
    if locationAllowedOf tm s.run (apiInstantOf tm data) && coordsInBox latVal lngVal then
      let r2 := match snap with
        | some sn => updateRunStatus r1 (validLocParams tm sn data latVal lngVal)
        | none => r1
      { s with
        run := r2
        locLog := logRunLocation s.locLog (validLocRow tm snap s data latVal lngVal) }
    else { s with run := r1 }
  | _, _ => { s with run := r1 }

/-! ## Error handlers (`poller.go` lines 299-373) -/

/-- `handleStaticResponse`: increment the static-response counter. -/
def handleStaticResponse (s : SysState) (nowIso : String) : SysState :=
  let e := s.run.errors
  let e2 : RunErrors :=
    { e with staticResponse := { count := e.staticResponse.count + 1, lastSeen := nowIso } }
  { s with run := updateRunStatus s.run { noUpdate with errors := some e2 } }

/-- `handleAPIError`: increment the api-error counter (creating it if absent). -/
def handleAPIError (s : SysState) (nowIso : String) : SysState :=
  let e := s.run.errors
  let prev : ℤ := match e.apiError with
    | none => 0
    | some c => c.count
  let e2 : RunErrors := { e with apiError := some { count := prev + 1, lastSeen := nowIso } }
  { s with run := updateRunStatus s.run { noUpdate with errors := some e2 } }

/-- `handleUnknownError`: increment the unknown counter (creating it if absent). -/
def handleUnknownError (s : SysState) (nowIso : String) : SysState :=
  let e := s.run.errors
  let prev : ℤ := match e.unknownError with
    | none => 0
    | some c => c.count
  let e2 : RunErrors := { e with unknownError := some { count := prev + 1, lastSeen := nowIso } }
  { s with run := updateRunStatus s.run { noUpdate with errors := some e2 } }

/-- `handleShortResponse` (`poller.go` lines 244-297): classify the short body,
mark the run arrived with the label, and for "not running" clear the weekday
bit of the run's date on the schedule bitmap. -/
def handleShortResponse (s : SysState) (bodyStr : String) : SysState :=
  let label := if goContains bodyStr "not running" then "not_running_today"
    else if goContains bodyStr "update the timetable" then "timetable_update"
    else "unknown_short_response"
  let r1 := updateRunStatus s.run
    { noUpdate with hasArrived := some 1, currentStatus := some label }
  let bm := if label = "not_running_today"
    then clearRunningDayBit s.runningDaysBitmap (weekdayOf s.run.runDate)
    else s.runningDaysBitmap
  { s with run := r1, runningDaysBitmap := bm }

/-! ## Classification and dispatch (`processRun`, `poller.go` lines 198-236) -/

/-- The outcome of one upstream fetch: a transport/status failure, or a body
together with the outcome of `json.Unmarshal` (which is not embeddable and is
therefore carried as an oracle). -/
inductive FetchOutcome where
  | fetchError
  | body (bodyStr : String) (parsed : Option APIResponse)
deriving DecidableEq

/-- The classification of §4.3: short bodies by substring, static pages by the
missing status marker, malformed JSON, or a valid parsed response. -/
inductive Classified where
  | short (bodyStr : String)
  | staticResp
  | malformed
  | apiError
  | valid (data : APIResponse)
deriving DecidableEq

/-- The response classifier, following the dispatch order of `processRun`:
fetch errors, then bodies under 150 bytes, then bodies missing both status
markers, then JSON decoding. -/
def classifyOutcome (outcome : FetchOutcome) : Classified :=
  match outcome with
  | .fetchError => .apiError
  | .body b parsed =>
    if b.utf8ByteSize < 150 then .short b
    else if !goContains b "running_status" && !goContains b "running status" then .staticResp
    else
      match parsed with
      | none => .malformed
      | some d => .valid d

/-- Apply one classified response to the state, as `processRun` dispatches. -/
def applyClassified (tm : TimeModel) (snap : Option SnapResult) (nowIso : String)
    (s : SysState) : Classified → SysState
  | .short b => handleShortResponse s b
  | .staticResp => handleStaticResponse s nowIso
  | .malformed => handleUnknownError s nowIso
  | .apiError => handleAPIError s nowIso
  | .valid d => processValidResponse tm snap s d

/-- One full per-run step: classify the fetch outcome and apply it. -/
def processRunOutcome (tm : TimeModel) (snap : Option SnapResult) (nowIso : String)
    (s : SysState) (outcome : FetchOutcome) : SysState :=
  applyClassified tm snap nowIso s (classifyOutcome outcome)

/-! ## The polling queue (`ListRunsToPoll`, `queries_poller.sql` lines 1-36)

`run_date` columns are modelled by their calendar-day number and `@now_ts` by
its day number and minute of the day, so SQLite's `date(...)` comparisons and
the `datetime(run_date || ' ' || printf('%02d:%02d', min/60, min%60))` start
gate become integer comparisons (departure minutes lie in `[0, 1440)`). -/

/-- The columns of one candidate row of the `train_runs ⋈ train_schedules`
join that the `WHERE` clause and `ORDER BY` read. -/
structure PollRow where
  runId : String
  trainNo : ℤ
  runDate : ℤ
  originSchDepartureMin : ℤ
  hasArrived : ℤ
  errors : RunErrors
  lastUpdateTimestampIso : Option String
deriving DecidableEq

/-- `@now_ts` split into its calendar day and minute of the day. -/
structure NowTs where
  day : ℤ
  minuteOfDay : ℤ
deriving DecidableEq

/-- `COALESCE(json_extract(errors, '$.static_response.count'), 0)`. -/
def staticCount (e : RunErrors) : ℤ := e.staticResponse.count

/-- `COALESCE(json_extract(errors, '$.api_error.count'), 0)`. -/
def apiErrCount (e : RunErrors) : ℤ :=
  match e.apiError with
  | none => 0
  | some c => c.count

/-- `COALESCE(json_extract(errors, '$.unknown.count'), 0)`. -/
def unknownCount (e : RunErrors) : ℤ :=
  match e.unknownError with
  | none => 0
  | some c => c.count

/-- The `WHERE` clause of `ListRunsToPoll`. -/
def eligibleToPoll (now : NowTs) (staticThr totalThr : ℤ) (r : PollRow) : Bool :=
  decide (r.hasArrived = 0 ∧
    r.runDate ≤ now.day ∧
    now.day - 5 ≤ r.runDate ∧
    staticCount r.errors < staticThr ∧
    staticCount r.errors + apiErrCount r.errors + unknownCount r.errors < totalThr ∧
    r.runDate * 1440 + r.originSchDepartureMin ≤ now.day * 1440 + now.minuteOfDay)

/-- The `ORDER BY last_update_timestamp_ISO ASC NULLS FIRST` key order:
SQLite sorts NULL before any text, and text ascending. -/
def isoLe (a b : Option String) : Bool :=
  match a, b with
  | none, _ => true
  | some _, none => false
  | some x, some y => decide (x ≤ y)

/-- The `ORDER BY` relation on candidate rows. -/
def pollOrder (a b : PollRow) : Prop :=
  isoLe a.lastUpdateTimestampIso b.lastUpdateTimestampIso = true

instance : DecidableRel pollOrder := fun _ _ => decEq _ _

/-- `ListRunsToPoll`: filter by the `WHERE` clause, order by the timestamp
key with nulls first (a stable sort models the `ORDER BY`). -/
def listRunsToPoll (rows : List PollRow) (now : NowTs) (staticThr totalThr : ℤ) :
    List PollRow :=
  (rows.filter (eligibleToPoll now staticThr totalThr)).insertionSort pollOrder

/-! ## Upstream client (`wimt/api.go`) -/

/-- UTF-8 bytes of a string (Go strings are byte slices). -/
def strBytes (s : String) : List ℕ := s.toUTF8.toList.map (fun b => b.toNat)

/-- The Adler-32 checksum of `hash/adler32`: `a` starts at 1, `b` at 0, both
accumulated per byte modulo 65521; the checksum is `b * 2^16 + a`. -/
def adler32 (bytes : List ℕ) : ℕ :=
  let p := bytes.foldl
    (fun (ab : ℕ × ℕ) x => ((ab.1 + x) % 65521, (ab.2 + ((ab.1 + x) % 65521)) % 65521))
    (1, 0)
  p.2 * 65536 + p.1

/-- `computeAdler32String`: the checksum rendered in decimal. -/
def computeAdler32String (s : String) : String := natDecimal (adler32 (strBytes s))

/-- `generateWID`: checksum of the in-order concatenation of the identity
parameters. -/
def generateWID (uid version qid trainNo fromStn toStn date fromDay : String) : String :=
  computeAdler32String (uid ++ version ++ qid ++ trainNo ++ fromStn ++ toStn ++ date ++ fromDay)

/-- The fixed `user` identifier of `wimt/api.go`. -/
def staticUID : String := "caea2ea591b5446f82acbf4db26b7c13"

/-- The fixed `appVersion` string of `wimt/api.go`. -/
def appVersion : String := "7.1.5.802422502"

/-- The `wid` query parameter as `FetchTrainStatus` computes it: `dateStr` is
the DD-MM-YYYY rendering of the start date and `from_day` is the literal
`"1"`. -/
def fetchStatusWid (qid trainNo fromStn toStn dateStr : String) : String :=
  generateWID staticUID appVersion qid trainNo fromStn toStn dateStr "1"

/-! ## Spec-side definitions (for refinement statements only)

These follow the specification's words and are compared against the
definitions translated from the source. -/

/-- Modelled from the spec: the status mapping of §4.4 step 1. -/
def specCanonicalStatus (raw : String) : String × Bool :=
  if raw = "end" then ("completed", true)
  else if raw = "cancelled" then ("cancelled", true)
  else if raw = "terminated" then ("terminated", true)
  else if raw = "rescheduled" then ("rescheduled", false)
  else if raw = "" then ("unknown", false)
  else (raw, false)

/-- Modelled from the spec: the one change per application that claim C9
permits — the matching error counter increments once (with its `last_seen`
stamped); every other classification leaves the post-state fixed. -/
def bumpSpec (nowIso : String) (c : Classified) (s : SysState) : SysState :=
  match c with
  | .staticResp =>
    let e2 : RunErrors := { s.run.errors with
      staticResponse := { count := s.run.errors.staticResponse.count + 1, lastSeen := nowIso } }
    { s with run := { s.run with errors := e2 } }
  | .apiError =>
    let e2 : RunErrors := { s.run.errors with
      apiError := some ⟨apiErrCount s.run.errors + 1, nowIso⟩ }
    { s with run := { s.run with errors := e2 } }
  | .malformed =>
    let e2 : RunErrors := { s.run.errors with
      unknownError := some ⟨unknownCount s.run.errors + 1, nowIso⟩ }
    { s with run := { s.run with errors := e2 } }
  | _ => s

/-! ## A concrete time model (used by witnesses) -/

/-- Unbounded signed decimal parse, the witness instantiation of
`TimeModel.parse`. -/
def tmIntParse (s : String) : Option ℤ :=
  match s.toList with
  | [] => none
  | c :: cs =>
    if c = '-' then (parseNatChars cs).map (fun n => -(n : ℤ))
    else (parseNatChars (c :: cs)).map (fun n => (n : ℤ))

/-- A concrete time model: instants rendered in decimal. -/
def tm0 : TimeModel := ⟨tmIntParse, intDecimal⟩

/-! ## Concrete inputs used in closed statements -/

/-- A fresh error record. -/
def wErrors : RunErrors := ⟨⟨0, ""⟩, none, none⟩

/-- A freshly expanded run row (never polled). -/
def wRun : RunState :=
  ⟨"12345_2025-05-10", 20218, 0, 0, "unknown", none, none, none, none, none, none, none,
   none, wErrors, none⟩

/-- A fresh system state: the run above, a full weekday bitmap, empty log. -/
def wState : SysState := ⟨wRun, 127, []⟩

/-- The run above as a polling candidate: departs 08:00, never updated. -/
def wPollRow : PollRow := ⟨"12345_2025-05-10", 12345, 20218, 480, 0, wErrors, none⟩

/-- A probe wall clock: the run's day at 10:00. -/
def wNow : NowTs := ⟨20218, 600⟩

/-- A current-station day-schedule entry (ordinal 3 at BCT). -/
def wDaySchedule : DaySchedule := ⟨3, "BCT", 100, 110, 120, 130, some true⟩

/-- A running status report at instant 100 with in-box coordinates. -/
def wResp : APIResponse :=
  ⟨"running", "", "100", some (191/10), some (729/10), 123456/10000, false,
   [wDaySchedule]⟩

/-- A report at instant 100 whose latitude `6.9999999` separates rounding from
truncation, with no current-station entry. -/
def cResp : APIResponse :=
  ⟨"running", "", "100", some (69999999/10000000), some (137/2), 0, false, []⟩

/-- A report at instant 100 with integral in-box coordinates and no
current-station entry. -/
def wBoxResp : APIResponse :=
  ⟨"running", "", "100", some 7, some 69, 5, false, []⟩

/-- A run whose cursor sits at ordinal 2. -/
def wCursorRun : RunState := { wRun with lastUpdatedSno := some "2|ABC|1|1|1|1" }

/-- A state whose run carries the ordinal-2 cursor. -/
def wCursorState : SysState := ⟨wCursorRun, 127, []⟩

/-- A report whose current-station entry has an invalid schedule time, so no
cursor string can be formed from it. -/
def wBadSnoResp : APIResponse :=
  ⟨"running", "", "", none, none, 0, false, [⟨3, "BCT", 0, 0, 0, 0, some true⟩]⟩

/-- The state after `wRun` has already absorbed `wResp` (stored instant 100). -/
def wStaleRun : RunState :=
  { wRun with lastUpdateTimestampIso := some "200" }

/-- A state whose stored timestamp (instant 200) is ahead of `wResp`. -/
def wStaleState : SysState := ⟨wStaleRun, 127, []⟩

/-! ## Lemmas: decimal rendering and parsing -/

theorem natDigitsRev_zero : natDigitsRev 0 = [] := by
  rw [natDigitsRev]
  simp

theorem natDigitsRev_pos {n : ℕ} (h : n ≠ 0) :
    natDigitsRev n = (n % 10) :: natDigitsRev (n / 10) := by
  rw [natDigitsRev]
  simp [h]

theorem natDigitsRev_lt (n : ℕ) : ∀ d ∈ natDigitsRev n, d < 10 := by
  induction n using Nat.strong_induction_on with
  | _ n ih =>
    by_cases h : n = 0
    · subst h
      rw [natDigitsRev_zero]
      intro d hd
      cases hd
    · rw [natDigitsRev_pos h]
      intro d hd
      rcases List.mem_cons.mp hd with h1 | h2
      · subst h1
        exact Nat.mod_lt _ (by decide)
      · exact ih (n / 10) (Nat.div_lt_self (Nat.pos_of_ne_zero h) (by decide)) d h2

theorem digitVal_digitChar {d : ℕ} (h : d < 10) : digitVal (digitChar d) = d := by
  interval_cases d <;> decide

theorem isDigitChar_digitChar {d : ℕ} (h : d < 10) : isDigitChar (digitChar d) = true := by
  interval_cases d <;> decide

theorem digitsVal_append_one (l : List Char) (c : Char) :
    digitsVal (l ++ [c]) = digitsVal l * 10 + digitVal c := by
  simp [digitsVal, List.foldl_append]

theorem digitsVal_natDigitsRev (n : ℕ) :
    digitsVal ((natDigitsRev n).reverse.map digitChar) = n := by
  induction n using Nat.strong_induction_on with
  | _ n ih =>
    by_cases h : n = 0
    · subst h
      rw [natDigitsRev_zero]
      rfl
    · rw [natDigitsRev_pos h]
      have hrec := ih (n / 10) (Nat.div_lt_self (Nat.pos_of_ne_zero h) (by decide))
      have hd : digitVal (digitChar (n % 10)) = n % 10 :=
        digitVal_digitChar (Nat.mod_lt _ (by decide))
      simp only [List.reverse_cons, List.map_append, List.map_cons, List.map_nil]
      rw [digitsVal_append_one, hrec, hd]
      omega

theorem natDecimal_toList (n : ℕ) :
    (natDecimal n).toList = (if n = 0 then [digitChar 0] else (natDigitsRev n).reverse.map digitChar) := by
  by_cases h : n = 0
  · subst h
    rfl
  · simp [natDecimal, h]
    rfl

theorem natDecimal_toList_digits (n : ℕ) :
    ∀ c ∈ (natDecimal n).toList, isDigitChar c = true := by
  rw [natDecimal_toList]
  by_cases h : n = 0
  · subst h
    intro c hc
    simp at hc
    subst hc
    decide
  · simp only [h, if_false]
    intro c hc
    rcases List.mem_map.mp hc with ⟨d, hd, rfl⟩
    exact isDigitChar_digitChar (natDigitsRev_lt n d (List.mem_reverse.mp hd))

theorem natDecimal_toList_ne_nil (n : ℕ) : (natDecimal n).toList ≠ [] := by
  rw [natDecimal_toList]
  by_cases h : n = 0
  · simp [h]
  · simp only [h, if_false]
    intro hcontra
    rw [List.map_eq_nil_iff, List.reverse_eq_nil_iff] at hcontra
    rw [natDigitsRev_pos h] at hcontra
    cases hcontra

theorem parseNatChars_natDecimal (n : ℕ) :
    parseNatChars (natDecimal n).toList = some n := by
  have hne := natDecimal_toList_ne_nil n
  have hall : ((natDecimal n).toList.all isDigitChar) = true :=
    List.all_eq_true.mpr (fun c hc => natDecimal_toList_digits n c hc)
  rw [parseNatChars, if_neg hne, if_pos hall]
  rw [natDecimal_toList]
  by_cases h : n = 0
  · subst h
    rfl
  · simp only [h, if_false]
    rw [digitsVal_natDigitsRev]

theorem isDigitChar_ne_dash {c : Char} (h : isDigitChar c = true) : c ≠ '-' := by
  intro hc
  subst hc
  cases h

theorem isDigitChar_ne_plus {c : Char} (h : isDigitChar c = true) : c ≠ '+' := by
  intro hc
  subst hc
  cases h

theorem isDigitChar_ne_pipe {c : Char} (h : isDigitChar c = true) : c ≠ '|' := by
  intro hc
  subst hc
  cases h

theorem goAtoi_natDecimal (n : ℕ) : goAtoi (natDecimal n) = int64Check (n : ℤ) := by
  obtain ⟨c, cs, hcs⟩ : ∃ c cs, (natDecimal n).toList = c :: cs := by
    rcases hl : (natDecimal n).toList with _ | ⟨c, cs⟩
    · exact absurd hl (natDecimal_toList_ne_nil n)
    · exact ⟨c, cs, rfl⟩
  have hcdigit : isDigitChar c = true := natDecimal_toList_digits n c (by rw [hcs]; exact List.mem_cons_self _ _)
  rw [goAtoi, hcs]
  dsimp only
  rw [if_neg (isDigitChar_ne_dash hcdigit), if_neg (isDigitChar_ne_plus hcdigit)]
  rw [← hcs, parseNatChars_natDecimal]
  rfl

theorem goAtoi_intDecimal (i : ℤ) : goAtoi (intDecimal i) = int64Check i := by
  by_cases h : i < 0
  · have htl : (intDecimal i).toList = '-' :: (natDecimal i.natAbs).toList := by
      simp [intDecimal, h]
    rw [goAtoi, htl]
    dsimp only
    rw [if_pos rfl, parseNatChars_natDecimal]
    show int64Check (-((i.natAbs : ℕ) : ℤ)) = int64Check i
    congr 1
    omega
  · have : intDecimal i = natDecimal i.natAbs := by
      simp [intDecimal, h]
    rw [this, goAtoi_natDecimal]
    congr 1
    omega

theorem tmIntParse_natDecimal (n : ℕ) : tmIntParse (natDecimal n) = some (n : ℤ) := by
  obtain ⟨c, cs, hcs⟩ : ∃ c cs, (natDecimal n).toList = c :: cs := by
    rcases hl : (natDecimal n).toList with _ | ⟨c, cs⟩
    · exact absurd hl (natDecimal_toList_ne_nil n)
    · exact ⟨c, cs, rfl⟩
  have hcdigit : isDigitChar c = true := natDecimal_toList_digits n c (by rw [hcs]; exact List.mem_cons_self _ _)
  rw [tmIntParse, hcs]
  dsimp only
  rw [if_neg (isDigitChar_ne_dash hcdigit), ← hcs, parseNatChars_natDecimal]
  rfl

theorem tmIntParse_intDecimal (i : ℤ) : tmIntParse (intDecimal i) = some i := by
  by_cases h : i < 0
  · have htl : (intDecimal i).toList = '-' :: (natDecimal i.natAbs).toList := by
      simp [intDecimal, h]
    rw [tmIntParse, htl]
    dsimp only
    rw [if_pos rfl, parseNatChars_natDecimal]
    show some (-((i.natAbs : ℕ) : ℤ)) = some i
    congr 1
    omega
  · have he : intDecimal i = natDecimal i.natAbs := by
      simp [intDecimal, h]
    rw [he, tmIntParse_natDecimal]
    congr 1
    omega

theorem natDecimal_ne_empty (n : ℕ) : natDecimal n ≠ "" := by
  intro h
  apply natDecimal_toList_ne_nil n
  rw [h]
  rfl

theorem intDecimal_ne_empty (i : ℤ) : intDecimal i ≠ "" := by
  unfold intDecimal
  split
  · intro h
    have h2 : ('-' :: (natDecimal i.natAbs).toList) = ([] : List Char) := congrArg String.toList h
    cases h2
  · exact natDecimal_ne_empty _

theorem tm0_roundTrip : tm0.RoundTrip :=
  ⟨fun t => tmIntParse_intDecimal t, fun t => intDecimal_ne_empty t⟩

/-! ## Lemmas: the pipe-separated cursor -/

theorem takeWhile_append_stop {p : Char → Bool} (l₁ : List Char) (b : Char) (l₂ : List Char)
    (h : ∀ c ∈ l₁, p c = true) (hb : p b = false) :
    (l₁ ++ b :: l₂).takeWhile p = l₁ := by
  induction l₁ with
  | nil => simp [List.takeWhile_cons, hb]
  | cons a l ih =>
    have ha : p a = true := h a (List.mem_cons_self _ _)
    simp only [List.cons_append, List.takeWhile_cons, ha, if_true]
    rw [ih (fun c hc => h c (List.mem_cons_of_mem _ hc))]

theorem toList_eq_nil_iff (s : String) : s.toList = [] ↔ s = "" := by
  constructor
  · intro h
    cases s with
    | mk data => cases h; rfl
  · intro h
    subst h
    rfl

theorem intDecimal_nonneg_digits (i : ℤ) (hnn : 0 ≤ i) :
    ∀ c ∈ (intDecimal i).toList, isDigitChar c = true := by
  have he : intDecimal i = natDecimal i.natAbs := by
    simp [intDecimal, not_lt.mpr hnn]
  rw [he]
  exact natDecimal_toList_digits i.natAbs

theorem firstPipeField_before_pipe (i : ℤ) (hnn : 0 ≤ i) (rest : List Char) (s : String)
    (hs : s.toList = (intDecimal i).toList ++ '|' :: rest) :
    firstPipeField s = intDecimal i := by
  unfold firstPipeField
  rw [hs, takeWhile_append_stop]
  · exact rfl
  · intro c hc
    have := isDigitChar_ne_pipe (intDecimal_nonneg_digits i hnn c hc)
    exact decide_eq_true this
  · exact decide_eq_false (by simp)

theorem snoStr_shape (c : DaySchedule) (inc : String)
    (h : snoStrFromDaySchedule c = some inc) :
    0 ≤ c.sno ∧ inc.toList = (intDecimal c.sno).toList ++ '|' ::
      (c.stationCode ++ "|" ++ intDecimal c.schArrivalTm ++ "|" ++
       intDecimal c.actualArrivalTm ++ "|" ++ intDecimal c.schDepartureTm ++ "|" ++
       intDecimal c.actualDepartureTm).toList := by
  unfold snoStrFromDaySchedule at h
  split at h
  · cases h
  · rename_i hguard
    push_neg at hguard
    refine ⟨hguard.1, ?_⟩
    injection h with h'
    subst h'
    show ((intDecimal c.sno).toList ++ "|".toList ++ c.stationCode.toList ++ "|".toList ++
      (intDecimal c.schArrivalTm).toList ++ "|".toList ++ (intDecimal c.actualArrivalTm).toList ++
      "|".toList ++ (intDecimal c.schDepartureTm).toList ++ "|".toList ++
      (intDecimal c.actualDepartureTm).toList) = _
    simp [List.append_assoc]

theorem parseLeadInt_snoStr (c : DaySchedule) (inc : String)
    (h : snoStrFromDaySchedule c = some inc) :
    parseLeadInt inc = int64Check c.sno ∧ inc ≠ "" := by
  obtain ⟨hnn, hshape⟩ := snoStr_shape c inc h
  constructor
  · unfold parseLeadInt
    rw [firstPipeField_before_pipe c.sno hnn _ inc hshape, goAtoi_intDecimal]
  · intro hempty
    subst hempty
    have : ([] : List Char) = _ := hshape
    have hne := natDecimal_toList_ne_nil (c.sno).natAbs
    have he : intDecimal c.sno = natDecimal (c.sno).natAbs := by
      simp [intDecimal, not_lt.mpr hnn]
    rw [he] at this
    cases hl : (natDecimal (c.sno).natAbs).toList with
    | nil => exact hne hl
    | cons a l =>
      rw [hl] at this
      cases this

/-! ## Lemmas: the running-days bitmap -/

theorem testBit_one_shiftLeft (w i : ℕ) : (1 <<< w).testBit i = decide (w = i) := by
  rw [Nat.shiftLeft_eq, one_mul, Nat.testBit_two_pow]

theorem clearRunningDayBit_testBit_self (bm w : ℕ) (hw : w < 64) :
    (clearRunningDayBit bm w).testBit w = false := by
  unfold clearRunningDayBit
  split
  · rw [Nat.testBit_land, Nat.testBit_xor, Nat.testBit_two_pow_sub_one,
      testBit_one_shiftLeft]
    simp [hw]
  · rename_i hguard
    push_neg at hguard
    have hb := congrArg (fun x => x.testBit w) hguard
    simp only [Nat.testBit_land, Nat.zero_testBit, testBit_one_shiftLeft] at hb
    simpa using hb

theorem clearRunningDayBit_testBit_mono (bm w i : ℕ)
    (h : (clearRunningDayBit bm w).testBit i = true) : bm.testBit i = true := by
  unfold clearRunningDayBit at h
  split at h
  · rw [Nat.testBit_land] at h
    exact Bool.and_elim_left h
  · exact h

theorem clearRunningDayBit_idem (bm w : ℕ) (hw : w < 64) :
    clearRunningDayBit (clearRunningDayBit bm w) w = clearRunningDayBit bm w := by
  have hz : clearRunningDayBit bm w &&& (1 <<< w) = 0 := by
    apply Nat.eq_of_testBit_eq
    intro i
    rw [Nat.testBit_land, Nat.zero_testBit, testBit_one_shiftLeft]
    by_cases hi : w = i
    · subst hi
      rw [clearRunningDayBit_testBit_self bm w hw]
      rfl
    · simp [hi]
  conv_lhs => rw [clearRunningDayBit]
  rw [if_neg (by simp [hz])]

theorem weekdayOf_lt (d : ℤ) : weekdayOf d < 7 := by
  unfold weekdayOf
  have h1 : 0 ≤ (d + 4) % 7 := Int.emod_nonneg _ (by decide)
  have h2 : (d + 4) % 7 < 7 := Int.emod_lt_of_pos _ (by decide)
  omega

/-! ## Lemmas: the polling-queue order -/

theorem isoLe_trans (a b c : Option String)
    (hab : isoLe a b = true) (hbc : isoLe b c = true) : isoLe a c = true := by
  cases a with
  | none => rfl
  | some x =>
    cases b with
    | none => cases hab
    | some y =>
      cases c with
      | none => cases hbc
      | some z =>
        simp only [isoLe, decide_eq_true_eq] at hab hbc ⊢
        exact le_trans hab hbc

theorem isoLe_total (a b : Option String) : (isoLe a b || isoLe b a) = true := by
  cases a with
  | none => rfl
  | some x =>
    cases b with
    | none => rfl
    | some y =>
      simp only [isoLe, Bool.or_eq_true, decide_eq_true_eq]
      exact le_total x y

/-! ## Lemmas: the valid-response transition, field by field -/

theorem coalesce_idem {α : Type} (p x : Option α) :
    coalesce p (coalesce p x) = coalesce p x := by
  cases p <;> rfl

/-- When coordinates are missing or rejected, `processValidResponse` performs
only the status update. -/
theorem processValidResponse_eq_nocoords (tm : TimeModel) (snap : Option SnapResult)
    (s : SysState) (d : APIResponse)
    (h : d.lat = none ∨ d.lng = none ∨
      (locationAllowedOf tm s.run (apiInstantOf tm d) && coordsOk d) = false) :
    processValidResponse tm snap s d =
      { s with run := updateRunStatus s.run (validStatusParams tm s d) } := by
  unfold processValidResponse
  rcases hla : d.lat with _ | la <;> rcases hln : d.lng with _ | ln <;> try rfl
  dsimp only
  rw [if_neg]
  rcases h with h | h | h
  · cases hla.symm.trans h
  · cases hln.symm.trans h
  · rw [coordsOk, hla, hln] at h
    simp [h]

/-- When the gate and the box checks pass, `processValidResponse` inserts the
location-log row and, when snapping succeeded, also updates the run's
location fields. -/
theorem processValidResponse_eq_coords (tm : TimeModel) (snap : Option SnapResult)
    (s : SysState) (d : APIResponse) (la ln : ℚ)
    (hla : d.lat = some la) (hln : d.lng = some ln)
    (h : (locationAllowedOf tm s.run (apiInstantOf tm d) && coordsInBox la ln) = true) :
    processValidResponse tm snap s d =
      { s with
        run := (match snap with
          | some sn => updateRunStatus (updateRunStatus s.run (validStatusParams tm s d))
              (validLocParams tm sn d la ln)
          | none => updateRunStatus s.run (validStatusParams tm s d))
        locLog := logRunLocation s.locLog (validLocRow tm snap s d la ln) } := by
  unfold processValidResponse
  rw [hla, hln]
  dsimp only
  rw [if_pos h]

/-- The fields written by the status update of `processValidResponse`,
independent of the coordinate branch taken. -/
theorem processValidResponse_core (tm : TimeModel) (snap : Option SnapResult)
    (s : SysState) (d : APIResponse) :
    (processValidResponse tm snap s d).run.hasStarted = 1 ∧
    (processValidResponse tm snap s d).run.hasArrived =
      (if (resolveStatus d).isTerminal then 1 else 0) ∧
    (processValidResponse tm snap s d).run.currentStatus = (resolveStatus d).canonical ∧
    (processValidResponse tm snap s d).run.errors =
      { s.run.errors with staticResponse := { s.run.errors.staticResponse with count := 0 } } ∧
    (processValidResponse tm snap s d).run.lastUpdatedSno =
      coalesce (computeFinalSno s.run.lastUpdatedSno d) s.run.lastUpdatedSno ∧
    (processValidResponse tm snap s d).run.lastUpdateTimestampIso =
      coalesce ((apiInstantOf tm d).map tm.format) s.run.lastUpdateTimestampIso ∧
    (processValidResponse tm snap s d).run.runId = s.run.runId ∧
    (processValidResponse tm snap s d).run.runDate = s.run.runDate ∧
    (processValidResponse tm snap s d).runningDaysBitmap = s.runningDaysBitmap := by
  by_cases hc : d.lat = none ∨ d.lng = none ∨
      (locationAllowedOf tm s.run (apiInstantOf tm d) && coordsOk d) = false
  · rw [processValidResponse_eq_nocoords tm snap s d hc]
    exact ⟨rfl, rfl, rfl, rfl, rfl, rfl, rfl, rfl, rfl⟩
  · push_neg at hc
    obtain ⟨hla', hln', hgate⟩ := hc
    obtain ⟨la, hla⟩ := Option.ne_none_iff_exists'.mp hla'
    obtain ⟨ln, hln⟩ := Option.ne_none_iff_exists'.mp hln'
    have hgate' : (locationAllowedOf tm s.run (apiInstantOf tm d) && coordsInBox la ln) = true := by
      rw [coordsOk, hla, hln] at hgate
      exact Bool.of_not_eq_false hgate
    rw [processValidResponse_eq_coords tm snap s d la ln hla hln hgate']
    rcases snap with _ | sn
    · exact ⟨rfl, rfl, rfl, rfl, rfl, rfl, rfl, rfl, rfl⟩
    · refine ⟨rfl, rfl, rfl, rfl, rfl, ?_, rfl, rfl, rfl⟩
      show coalesce ((apiInstantOf tm d).map tm.format)
          (coalesce ((apiInstantOf tm d).map tm.format) s.run.lastUpdateTimestampIso) =
        coalesce ((apiInstantOf tm d).map tm.format) s.run.lastUpdateTimestampIso
      exact coalesce_idem _ _

/-! ## Lemmas: cursor acceptance and idempotence -/

theorem int64Check_some {v k : ℤ} (h : int64Check v = some k) : k = v := by
  unfold int64Check at h
  split at h
  · injection h with h'
    exact h'.symm
  · cases h

theorem parseLeadInt_empty : parseLeadInt "" = none := rfl

theorem snoStr_conditions (c : DaySchedule) (inc : String)
    (h : snoStrFromDaySchedule c = some inc) : ¬(c.sno < 0 ∨ c.stationCode = "") := by
  unfold snoStrFromDaySchedule at h
  split at h
  · cases h
  · rename_i hguard
    push_neg at hguard
    push_neg
    exact ⟨hguard.1, hguard.2.1⟩

/-- Characterisation of an accepted cursor. -/
theorem computeFinalSno_some (ex : Option String) (d : APIResponse) (inc : String)
    (h : computeFinalSno ex d = some inc) :
    ∃ c, currentStation d = some c ∧ snoStrFromDaySchedule c = some inc ∧
      (ex = none ∨ ex = some "" ∨
        ∃ e k, ex = some e ∧ parseLeadInt e = some k ∧ k < c.sno) := by
  rcases hc : currentStation d with _ | c
  · rw [computeFinalSno, hc] at h
    cases h
  · refine ⟨c, rfl, ?_⟩
    rw [computeFinalSno, hc] at h
    dsimp only at h
    split at h
    · cases h
    · rcases hs : snoStrFromDaySchedule c with _ | inc' <;> rw [hs] at h <;> dsimp only at h
      · cases h
      · rcases ex with _ | e <;> dsimp only at h
        · injection h with h'
          subst h'
          exact ⟨rfl, Or.inl rfl⟩
        · by_cases he : e = ""
          · rw [if_pos he] at h
            injection h with h'
            subst h'
            subst he
            exact ⟨rfl, Or.inr (Or.inl rfl)⟩
          · rw [if_neg he] at h
            rcases hp : parseLeadInt e with _ | k <;> rw [hp] at h <;> dsimp only at h
            · cases h
            · split at h
              · injection h with h'
                subst h'
                rename_i hk
                exact ⟨rfl, Or.inr (Or.inr ⟨e, k, rfl, hp, hk⟩)⟩
              · cases h

/-- A second look at the same response never moves the cursor again. -/
theorem computeFinalSno_after (ex : Option String) (d : APIResponse) :
    computeFinalSno (coalesce (computeFinalSno ex d) ex) d = none := by
  rcases hcf : computeFinalSno ex d with _ | inc
  · rw [coalesce]
    exact hcf
  · rw [coalesce]
    obtain ⟨c, hc, hs, -⟩ := computeFinalSno_some ex d inc hcf
    obtain ⟨hplead, hne⟩ := parseLeadInt_snoStr c inc hs
    rw [computeFinalSno, hc]
    dsimp only
    rw [if_neg (snoStr_conditions c inc hs), hs]
    dsimp only
    rw [if_neg hne, hplead]
    by_cases hbnd : int64Min ≤ c.sno ∧ c.sno ≤ int64Max
    · rw [int64Check, if_pos hbnd]
      dsimp only
      rw [if_neg (lt_irrefl c.sno)]
    · rw [int64Check, if_neg hbnd]

/-! ## Lemmas: record extensionality -/

theorem runState_ext {a b : RunState}
    (h1 : a.runId = b.runId) (h2 : a.runDate = b.runDate) (h3 : a.hasStarted = b.hasStarted)
    (h4 : a.hasArrived = b.hasArrived) (h5 : a.currentStatus = b.currentStatus)
    (h6 : a.lastKnownLatU6 = b.lastKnownLatU6) (h7 : a.lastKnownLngU6 = b.lastKnownLngU6)
    (h8 : a.lastKnownSnappedLatU6 = b.lastKnownSnappedLatU6)
    (h9 : a.lastKnownSnappedLngU6 = b.lastKnownSnappedLngU6)
    (h10 : a.lastRouteFracU4 = b.lastRouteFracU4) (h11 : a.lastBearingDeg = b.lastBearingDeg)
    (h12 : a.lastKnownDistanceKmU4 = b.lastKnownDistanceKmU4)
    (h13 : a.lastUpdatedSno = b.lastUpdatedSno) (h14 : a.errors = b.errors)
    (h15 : a.lastUpdateTimestampIso = b.lastUpdateTimestampIso) : a = b := by
  cases a
  cases b
  simp_all

theorem sysState_ext {a b : SysState}
    (h1 : a.run = b.run) (h2 : a.runningDaysBitmap = b.runningDaysBitmap)
    (h3 : a.locLog = b.locLog) : a = b := by
  cases a
  cases b
  simp_all

/-! ## Claim theorems -/

/-- C10: for every `fetch_status` request, the `wid` query parameter is the
Adler-32 checksum, rendered in decimal, of the concatenation of the fixed
user identifier, the fixed appVersion, the qid, the train number, the from
and to stations, the DD-MM-YYYY date string, and the from_day value `"1"`,
in that order. -/
theorem wid_is_adler32_of_concatenation (qid trainNo fromStn toStn dateStr : String) :
    fetchStatusWid qid trainNo fromStn toStn dateStr =
      natDecimal (adler32 (strBytes
        (staticUID ++ appVersion ++ qid ++ trainNo ++ fromStn ++ toStn ++ dateStr ++ "1"))) :=
  rfl

/-- C5: every valid-response transition resets the stored
`errors.static_response.count` to 0, regardless of its prior value. -/
theorem validResponse_resets_static_count (tm : TimeModel) (snap : Option SnapResult)
    (s : SysState) (d : APIResponse) :
    (processValidResponse tm snap s d).run.errors.staticResponse.count = 0 := by
  obtain ⟨-, -, -, he, -⟩ := processValidResponse_core tm snap s d
  rw [he]

/-- C1: every run returned by `list_runs_to_poll` has not arrived, has its run
date within the five-day lookback window ending now, is under both error
thresholds, and has already departed; the result is ordered by
`last_update_timestamp_ISO` ascending with nulls first. -/
theorem listRunsToPoll_spec (rows : List PollRow) (now : NowTs) (staticThr totalThr : ℤ) :
    (∀ r ∈ listRunsToPoll rows now staticThr totalThr,
      r.hasArrived = 0 ∧
      now.day - 5 ≤ r.runDate ∧ r.runDate ≤ now.day ∧
      staticCount r.errors < staticThr ∧
      staticCount r.errors + apiErrCount r.errors + unknownCount r.errors < totalThr ∧
      r.runDate * 1440 + r.originSchDepartureMin ≤ now.day * 1440 + now.minuteOfDay) ∧
    (listRunsToPoll rows now staticThr totalThr).Pairwise pollOrder := by
  constructor
  · intro r hr
    have hr' : r ∈ rows.filter (eligibleToPoll now staticThr totalThr) :=
      ((List.perm_insertionSort pollOrder _).mem_iff).mp hr
    have he := List.of_mem_filter hr'
    rw [eligibleToPoll] at he
    have hp := of_decide_eq_true he
    tauto
  · haveI : IsTotal PollRow pollOrder := ⟨fun a b => by
      rcases Bool.or_eq_true_iff.mp (isoLe_total a.lastUpdateTimestampIso b.lastUpdateTimestampIso)
        with h | h
      · exact Or.inl h
      · exact Or.inr h⟩
    haveI : IsTrans PollRow pollOrder := ⟨fun a b c hab hbc => isoLe_trans _ _ _ hab hbc⟩
    exact List.sorted_insertionSort pollOrder _

/-- C1 witness: the eligibility facts obtained for a concrete row selected by
a concrete query. -/
theorem listRunsToPoll_spec_witness :
    wPollRow.hasArrived = 0 ∧
    wNow.day - 5 ≤ wPollRow.runDate ∧ wPollRow.runDate ≤ wNow.day ∧
    staticCount wPollRow.errors < 10 ∧
    staticCount wPollRow.errors + apiErrCount wPollRow.errors + unknownCount wPollRow.errors < 5 ∧
    wPollRow.runDate * 1440 + wPollRow.originSchDepartureMin ≤
      wNow.day * 1440 + wNow.minuteOfDay :=
  (listRunsToPoll_spec [wPollRow] wNow 10 5).1 wPollRow (by decide)

/-- C2: the canonical status is the spec's mapping of the lower-cased,
trimmed `running_status` (with fallback to the alternate key), and the run is
updated with `has_started = 1` and `has_arrived = 1` exactly when the status
is terminal. -/
theorem statusResolution_spec (tm : TimeModel) (snap : Option SnapResult)
    (s : SysState) (d : APIResponse) :
    ((resolveStatus d).canonical, (resolveStatus d).isTerminal) =
      specCanonicalStatus (rawStatusOf d) ∧
    (processValidResponse tm snap s d).run.hasStarted = 1 ∧
    ((processValidResponse tm snap s d).run.hasArrived = 1 ↔
      (resolveStatus d).isTerminal = true) := by
  obtain ⟨h1, h2, -⟩ := processValidResponse_core tm snap s d
  refine ⟨?_, h1, ?_⟩
  · unfold resolveStatus specCanonicalStatus statusMapLookup
    by_cases hE : rawStatusOf d = "end" <;>
      by_cases hC : rawStatusOf d = "cancelled" <;>
        by_cases hT : rawStatusOf d = "terminated" <;>
          by_cases hR : rawStatusOf d = "rescheduled" <;>
            by_cases hU : rawStatusOf d = "" <;>
              simp_all
  · rw [h2]
    rcases hterm : (resolveStatus d).isTerminal <;> simp

/-- C2 witness: the theorem instantiated at a concrete valid response. -/
theorem statusResolution_spec_witness :
    ((resolveStatus wResp).canonical, (resolveStatus wResp).isTerminal) =
      specCanonicalStatus (rawStatusOf wResp) ∧
    (processValidResponse tm0 none wState wResp).run.hasStarted = 1 ∧
    ((processValidResponse tm0 none wState wResp).run.hasArrived = 1 ↔
      (resolveStatus wResp).isTerminal = true) :=
  statusResolution_spec tm0 none wState wResp

/-- C3: when the location gate fails or the coordinates are invalid (absent,
both zero, or outside the bounding box), the raw and snapped coordinate
fields, the bearing and the distance of the run are unchanged and no
location-log row is inserted. -/
theorem staleOrInvalidCoords_frame (tm : TimeModel) (snap : Option SnapResult)
    (s : SysState) (d : APIResponse)
    (h : locationAllowedOf tm s.run (apiInstantOf tm d) = false ∨ coordsOk d = false) :
    (processValidResponse tm snap s d).run.lastKnownLatU6 = s.run.lastKnownLatU6 ∧
    (processValidResponse tm snap s d).run.lastKnownLngU6 = s.run.lastKnownLngU6 ∧
    (processValidResponse tm snap s d).run.lastKnownSnappedLatU6 = s.run.lastKnownSnappedLatU6 ∧
    (processValidResponse tm snap s d).run.lastKnownSnappedLngU6 = s.run.lastKnownSnappedLngU6 ∧
    (processValidResponse tm snap s d).run.lastBearingDeg = s.run.lastBearingDeg ∧
    (processValidResponse tm snap s d).run.lastKnownDistanceKmU4 = s.run.lastKnownDistanceKmU4 ∧
    (processValidResponse tm snap s d).locLog = s.locLog := by
  have hno : d.lat = none ∨ d.lng = none ∨
      (locationAllowedOf tm s.run (apiInstantOf tm d) && coordsOk d) = false := by
    rcases h with h | h
    · right
      right
      rw [h]
      rfl
    · right
      right
      rw [h]
      exact Bool.and_false _
  rw [processValidResponse_eq_nocoords tm snap s d hno]
  exact ⟨rfl, rfl, rfl, rfl, rfl, rfl, rfl⟩

/-- C3 witness: a stored timestamp ahead of the incoming report leaves every
location field of a concrete run untouched. -/
theorem staleOrInvalidCoords_frame_witness :
    (processValidResponse tm0 none wStaleState wResp).run.lastKnownLatU6 =
      wStaleState.run.lastKnownLatU6 ∧
    (processValidResponse tm0 none wStaleState wResp).run.lastKnownLngU6 =
      wStaleState.run.lastKnownLngU6 ∧
    (processValidResponse tm0 none wStaleState wResp).run.lastKnownSnappedLatU6 =
      wStaleState.run.lastKnownSnappedLatU6 ∧
    (processValidResponse tm0 none wStaleState wResp).run.lastKnownSnappedLngU6 =
      wStaleState.run.lastKnownSnappedLngU6 ∧
    (processValidResponse tm0 none wStaleState wResp).run.lastBearingDeg =
      wStaleState.run.lastBearingDeg ∧
    (processValidResponse tm0 none wStaleState wResp).run.lastKnownDistanceKmU4 =
      wStaleState.run.lastKnownDistanceKmU4 ∧
    (processValidResponse tm0 none wStaleState wResp).locLog = wStaleState.locLog :=
  staleOrInvalidCoords_frame tm0 none wStaleState wResp (Or.inl (by decide))

/-- C8: when the gate and coordinate checks pass, the location-log insert is
performed with `at_station = ¬departed_cur_stn` and the segment station code
of the current-station entry — the empty string when no day-schedule entry
has `curStn` set, so the insert needs no current-station entry. -/
theorem locationInsert_spec (tm : TimeModel) (snap : Option SnapResult)
    (s : SysState) (d : APIResponse) (la ln : ℚ)
    (hla : d.lat = some la) (hln : d.lng = some ln)
    (hgate : locationAllowedOf tm s.run (apiInstantOf tm d) = true)
    (hbox : coordsInBox la ln = true) :
    (processValidResponse tm snap s d).locLog =
      logRunLocation s.locLog (validLocRow tm snap s d la ln) ∧
    (validLocRow tm snap s d la ln).segmentStationCode =
      (match currentStation d with
        | none => ""
        | some c => c.stationCode) ∧
    (validLocRow tm snap s d la ln).atStation = (if d.departedCurStn then 0 else 1) := by
  rw [processValidResponse_eq_coords tm snap s d la ln hla hln (by rw [hgate, hbox]; rfl)]
  exact ⟨rfl, rfl, rfl⟩

/-- C8 witness: a concrete response with no current-station entry still
produces the log row, with an empty segment station code. -/
theorem locationInsert_spec_witness :
    ((processValidResponse tm0 none wState wBoxResp).locLog =
      logRunLocation wState.locLog (validLocRow tm0 none wState wBoxResp 7 69) ∧
    (validLocRow tm0 none wState wBoxResp 7 69).segmentStationCode =
      (match currentStation wBoxResp with
        | none => ""
        | some c => c.stationCode) ∧
    (validLocRow tm0 none wState wBoxResp 7 69).atStation =
      (if wBoxResp.departedCurStn then 0 else 1)) ∧
    currentStation wBoxResp = none :=
  ⟨locationInsert_spec tm0 none wState wBoxResp 7 69 rfl rfl (by decide) (by decide),
    rfl⟩

/-- C6 (amended): coordinates are accepted exactly when both are present, not
both zero, and inside the bounding box; the persisted values are the
truncations toward zero (Go's `int64` conversion) of `lat × 10^6`,
`lng × 10^6` and `distance × 10^4` — not their roundings. -/
theorem validCoords_accept_and_scale (tm : TimeModel) (snap : Option SnapResult)
    (s : SysState) (d : APIResponse) :
    (coordsOk d = true ↔ ∃ la ln, d.lat = some la ∧ d.lng = some ln ∧
      ¬(la = 0 ∧ ln = 0) ∧ 6 ≤ la ∧ la ≤ 37 ∧ 68 ≤ ln ∧ ln ≤ 97) ∧
    ((d.lat = none ∨ d.lng = none ∨ coordsOk d = false) →
      (processValidResponse tm snap s d).locLog = s.locLog) ∧
    (∀ la ln, d.lat = some la → d.lng = some ln →
      locationAllowedOf tm s.run (apiInstantOf tm d) = true →
      coordsInBox la ln = true →
      (processValidResponse tm snap s d).locLog =
        logRunLocation s.locLog (validLocRow tm snap s d la ln) ∧
      (validLocRow tm snap s d la ln).latU6 = truncTowardZero (la * 1000000) ∧
      (validLocRow tm snap s d la ln).lngU6 = truncTowardZero (ln * 1000000) ∧
      (validLocRow tm snap s d la ln).distanceKmU4 = truncTowardZero (d.distance * 10000)) := by
  refine ⟨?_, ?_, ?_⟩
  · constructor
    · intro h
      rcases hla : d.lat with _ | la <;> rcases hln : d.lng with _ | ln <;>
          rw [coordsOk, hla, hln] at h
      · cases h
      · cases h
      · cases h
      · exact ⟨la, ln, rfl, rfl, of_decide_eq_true h⟩
    · rintro ⟨la, ln, hla, hln, hc⟩
      rw [coordsOk, hla, hln]
      exact decide_eq_true hc
  · intro h
    have hno : d.lat = none ∨ d.lng = none ∨
        (locationAllowedOf tm s.run (apiInstantOf tm d) && coordsOk d) = false := by
      rcases h with h | h | h
      · exact Or.inl h
      · exact Or.inr (Or.inl h)
      · right
        right
        rw [h]
        exact Bool.and_false _
    rw [processValidResponse_eq_nocoords tm snap s d hno]
  · intro la ln hla hln hgate hbox
    rw [processValidResponse_eq_coords tm snap s d la ln hla hln (by rw [hgate, hbox]; rfl)]
    exact ⟨rfl, rfl, rfl, rfl⟩

/-- C6 witness: the acceptance and truncation facts at a concrete accepted
coordinate pair. -/
theorem validCoords_accept_and_scale_witness :
    (processValidResponse tm0 none wState wBoxResp).locLog =
      logRunLocation wState.locLog (validLocRow tm0 none wState wBoxResp 7 69) ∧
    (validLocRow tm0 none wState wBoxResp 7 69).latU6 =
      truncTowardZero ((7 : ℚ) * 1000000) ∧
    (validLocRow tm0 none wState wBoxResp 7 69).lngU6 =
      truncTowardZero ((69 : ℚ) * 1000000) ∧
    (validLocRow tm0 none wState wBoxResp 7 69).distanceKmU4 =
      truncTowardZero (wBoxResp.distance * 10000) :=
  (validCoords_accept_and_scale tm0 none wState wBoxResp).2.2 _ _ rfl rfl (by decide) (by decide)

/-- C6 counterexample: at latitude `6.9999999` the persisted `lat_u6` is the
truncation `6999999`, while rounding `lat × 10^6` gives `7000000`, so the
claim's `round` does not describe the code. -/
theorem validCoords_round_counterexample :
    (processValidResponse tm0 none wState cResp).locLog.map (fun r => r.latU6) = [6999999] ∧
    round ((69999999 : ℚ) / 10000000 * 1000000) = 7000000 ∧ (6999999 : ℤ) ≠ 7000000 := by
  have hbox : coordsInBox (69999999/10000000) (137/2) = true := by
    apply decide_eq_true
    norm_num
  refine ⟨?_, ?_, by decide⟩
  · rw [processValidResponse_eq_coords tm0 none wState cResp (69999999/10000000) (137/2)
      rfl rfl (by rw [hbox]; rfl)]
    show [(validLocRow tm0 none wState cResp (69999999/10000000) (137/2)).latU6] = _
    rw [validLocRow]
    show [truncTowardZero ((69999999 : ℚ)/10000000 * 1000000)] = _
    rw [truncTowardZero, if_pos (by norm_num)]
    rw [show ((69999999 : ℚ)/10000000 * 1000000) = 69999999/10 by norm_num]
    have hf : (⌊(69999999 : ℚ)/10⌋ : ℤ) = 6999999 := by
      rw [Int.floor_eq_iff]
      constructor <;> norm_num
    rw [hf]
  · rw [round_eq]
    rw [show ((69999999 : ℚ)/10000000 * 1000000 + 1/2) = 70000004/10 by norm_num]
    rw [Int.floor_eq_iff]
    constructor <;> norm_num

/-- C7: a short body containing "not running" marks the run arrived with
status `not_running_today` and leaves bit `weekday(run_date)` of the
schedule's bitmap clear; moreover no transition of any classification ever
sets a bitmap bit, so the bitmap is non-increasing. -/
theorem shortNotRunning_clears_weekday_bit (tm : TimeModel) (snap : Option SnapResult)
    (nowIso : String) (s : SysState) (b : String) (parsed : Option APIResponse)
    (hlen : b.utf8ByteSize < 150) (hsub : goContains b "not running" = true) :
    (processRunOutcome tm snap nowIso s (.body b parsed)).run.hasArrived = 1 ∧
    (processRunOutcome tm snap nowIso s (.body b parsed)).run.currentStatus =
      "not_running_today" ∧
    (processRunOutcome tm snap nowIso s (.body b parsed)).runningDaysBitmap.testBit
      (weekdayOf s.run.runDate) = false ∧
    (∀ out : FetchOutcome, ∀ i : ℕ,
      (processRunOutcome tm snap nowIso s out).runningDaysBitmap.testBit i = true →
      s.runningDaysBitmap.testBit i = true) := by
  have heq : processRunOutcome tm snap nowIso s (.body b parsed) =
      { s with
        run := updateRunStatus s.run
          { noUpdate with hasArrived := some 1, currentStatus := some "not_running_today" }
        runningDaysBitmap := clearRunningDayBit s.runningDaysBitmap (weekdayOf s.run.runDate) } := by
    simp only [processRunOutcome, classifyOutcome]
    rw [if_pos hlen]
    show handleShortResponse s b = _
    rw [handleShortResponse, if_pos hsub]
    dsimp only
    rw [if_pos rfl]
  refine ⟨?_, ?_, ?_, ?_⟩
  · rw [heq]
    rfl
  · rw [heq]
    rfl

  · rw [heq]
    exact clearRunningDayBit_testBit_self _ _
      (lt_trans (weekdayOf_lt s.run.runDate) (by norm_num))
  · intro out i hbit
    rcases out with _ | ⟨b', parsed'⟩
    · exact hbit
    · simp only [processRunOutcome, classifyOutcome] at hbit
      by_cases hl : b'.utf8ByteSize < 150
      · rw [if_pos hl] at hbit
        have hb' : applyClassified tm snap nowIso s (.short b') = handleShortResponse s b' := rfl
        rw [hb', handleShortResponse] at hbit
        dsimp only at hbit
        by_cases h1 : goContains b' "not running" = true
        · rw [if_pos h1, if_pos rfl] at hbit
          exact clearRunningDayBit_testBit_mono _ _ _ hbit
        · rw [if_neg h1] at hbit
          by_cases h2 : goContains b' "update the timetable" = true
          · rw [if_pos h2, if_neg (by decide : ¬("timetable_update" = "not_running_today"))] at hbit
            exact hbit
          · rw [if_neg h2,
              if_neg (by decide : ¬("unknown_short_response" = "not_running_today"))] at hbit
            exact hbit
      · rw [if_neg hl] at hbit
        by_cases hst : (!goContains b' "running_status" && !goContains b' "running status") = true
        · rw [if_pos hst] at hbit
          exact hbit
        · rw [if_neg hst] at hbit
          rcases parsed' with _ | dd
          · exact hbit
          · have hbm := (processValidResponse_core tm snap s dd).2.2.2.2.2.2.2.2
            have hb' : applyClassified tm snap nowIso s (.valid dd) =
              processValidResponse tm snap s dd := rfl
            rw [hb', hbm] at hbit
            exact hbit

/-- C7 witness: a concrete 26-byte "not running" body on a full bitmap. -/
theorem shortNotRunning_clears_weekday_bit_witness :
    (processRunOutcome tm0 none "now" wState (.body "train is not running today" none)).run.hasArrived = 1 ∧
    (processRunOutcome tm0 none "now" wState (.body "train is not running today" none)).run.currentStatus =
      "not_running_today" ∧
    (processRunOutcome tm0 none "now" wState
        (.body "train is not running today" none)).runningDaysBitmap.testBit
      (weekdayOf wState.run.runDate) = false ∧
    (∀ out : FetchOutcome, ∀ i : ℕ,
      (processRunOutcome tm0 none "now" wState out).runningDaysBitmap.testBit i = true →
      wState.runningDaysBitmap.testBit i = true) :=
  shortNotRunning_clears_weekday_bit tm0 none "now" wState
    "train is not running today" none (by decide) (by decide)

/-- C4: the cursor is replaced by the incoming cursor string only when the
existing one is absent or empty or the incoming ordinal strictly exceeds the
parsed leading integer of the existing one, and otherwise is unchanged; hence
the parsed leading integer never decreases across a transition. -/
theorem cursorMonotonicity (tm : TimeModel) (snap : Option SnapResult)
    (s : SysState) (d : APIResponse) :
    ((processValidResponse tm snap s d).run.lastUpdatedSno = s.run.lastUpdatedSno ∨
      (∃ c inc, currentStation d = some c ∧ snoStrFromDaySchedule c = some inc ∧
        (processValidResponse tm snap s d).run.lastUpdatedSno = some inc ∧
        (s.run.lastUpdatedSno = none ∨ s.run.lastUpdatedSno = some "" ∨
          ∃ e k, s.run.lastUpdatedSno = some e ∧ parseLeadInt e = some k ∧ k < c.sno))) ∧
    (∀ e k e' k', s.run.lastUpdatedSno = some e → parseLeadInt e = some k →
      (processValidResponse tm snap s d).run.lastUpdatedSno = some e' →
      parseLeadInt e' = some k' → k ≤ k') := by
  obtain ⟨-, -, -, -, hsno, -⟩ := processValidResponse_core tm snap s d
  constructor
  · rcases hcf : computeFinalSno s.run.lastUpdatedSno d with _ | inc
    · left
      rw [hsno, hcf]
      rfl
    · right
      obtain ⟨c, hc, hs, hacc⟩ := computeFinalSno_some _ d inc hcf
      refine ⟨c, inc, hc, hs, ?_, hacc⟩
      rw [hsno, hcf]
      rfl
  · intro e k e' k' hex hpk hpost hpk'
    rcases hcf : computeFinalSno s.run.lastUpdatedSno d with _ | inc
    · rw [hsno, hcf, coalesce, hex] at hpost
      injection hpost with h'
      rw [← h'] at hpk'
      rw [hpk] at hpk'
      injection hpk' with h''
      omega
    · rw [hsno, hcf, coalesce] at hpost
      injection hpost with h'
      obtain ⟨c, hc, hs, hacc⟩ := computeFinalSno_some _ d inc hcf
      obtain ⟨hpl, -⟩ := parseLeadInt_snoStr c inc hs
      rw [← h', hpl] at hpk'
      have hk' := int64Check_some hpk'
      rcases hacc with hn | hn | ⟨e2, k2, he2, hpk2, hlt⟩
      · rw [hex] at hn
        cases hn
      · rw [hex] at hn
        injection hn with h2
        rw [h2, parseLeadInt_empty] at hpk
        cases hpk
      · rw [hex] at he2
        injection he2 with h2
        rw [← h2] at hpk2
        rw [hpk] at hpk2
        injection hpk2 with h3
        omega

/-- C4 witness: a cursor at ordinal 2 survives a report whose current-station
entry cannot form a cursor, and its parsed lead does not decrease. -/
theorem cursorMonotonicity_witness : (2 : ℤ) ≤ 2 :=
  (cursorMonotonicity tm0 none wCursorState wBadSnoResp).2
    "2|ABC|1|1|1|1" 2 "2|ABC|1|1|1|1" 2 rfl (by decide) (by decide) (by decide)

/-- Applying the same short body twice is the same as applying it once. -/
theorem handleShortResponse_idem (s : SysState) (b : String) :
    handleShortResponse (handleShortResponse s b) b = handleShortResponse s b := by
  have hw : weekdayOf s.run.runDate < 64 :=
    lt_trans (weekdayOf_lt s.run.runDate) (by norm_num)
  unfold handleShortResponse
  dsimp only
  by_cases h1 : goContains b "not running" = true
  · simp only [if_pos h1, if_pos rfl]
    refine sysState_ext rfl ?_ rfl
    exact clearRunningDayBit_idem s.runningDaysBitmap (weekdayOf s.run.runDate) hw
  · simp only [if_neg h1]
    by_cases h2 : goContains b "update the timetable" = true
    · simp only [if_pos h2,
        if_neg (by decide : ¬("timetable_update" = "not_running_today"))]
      rfl
    · simp only [if_neg h2,
        if_neg (by decide : ¬("unknown_short_response" = "not_running_today"))]
      rfl

/-- Applying the same valid response twice is the same as applying it once. -/
theorem processValidResponse_idem (tm : TimeModel) (snap : Option SnapResult)
    (s : SysState) (d : APIResponse) (htm : tm.RoundTrip) :
    processValidResponse tm snap (processValidResponse tm snap s d) d =
      processValidResponse tm snap s d := by
  obtain ⟨h1, h2, h3, h4, h5, h6, h7, h8, h9⟩ := processValidResponse_core tm snap s d
  set s1 := processValidResponse tm snap s d with hs1
  have hgate : locationAllowedOf tm s1.run (apiInstantOf tm d) = false := by
    rcases hapi : apiInstantOf tm d with _ | t
    · rfl
    · have hiso : s1.run.lastUpdateTimestampIso = some (tm.format t) := by
        rw [h6, hapi]
        rfl
      rw [locationAllowedOf, hiso]
      dsimp only
      rw [if_neg (htm.2 t), htm.1 t]
      dsimp only
      simp
  have hno : d.lat = none ∨ d.lng = none ∨
      (locationAllowedOf tm s1.run (apiInstantOf tm d) && coordsOk d) = false := by
    right
    right
    rw [hgate]
    rfl
  rw [processValidResponse_eq_nocoords tm snap s1 d hno]
  refine sysState_ext ?_ rfl rfl
  apply runState_ext
  · exact h7.symm ▸ rfl
  · rfl
  · show (1 : ℤ) = s1.run.hasStarted
    exact h1.symm
  · show (if (resolveStatus d).isTerminal then (1 : ℤ) else 0) = s1.run.hasArrived
    exact h2.symm
  · show (resolveStatus d).canonical = s1.run.currentStatus
    exact h3.symm
  · rfl
  · rfl
  · rfl
  · rfl
  · rfl
  · rfl
  · rfl
  · show coalesce (computeFinalSno s1.run.lastUpdatedSno d) s1.run.lastUpdatedSno =
      s1.run.lastUpdatedSno
    rw [h5, computeFinalSno_after]
    rfl
  · show ({ s1.run.errors with
        staticResponse := { s1.run.errors.staticResponse with count := 0 } } : RunErrors) =
      s1.run.errors
    rw [h4]
  · show coalesce ((apiInstantOf tm d).map tm.format) s1.run.lastUpdateTimestampIso =
      s1.run.lastUpdateTimestampIso
    rcases hapi : apiInstantOf tm d with _ | t
    · rfl
    · have hiso : s1.run.lastUpdateTimestampIso = some (tm.format t) := by
        rw [h6, hapi]
        rfl
      rw [hiso]
      rfl

/-- C9: applying the same classified response twice yields the same post-state
as applying it once, except that an error classification increments its
counter once per application. -/
theorem applyClassified_idempotent (tm : TimeModel) (snap : Option SnapResult)
    (nowIso : String) (s : SysState) (c : Classified) (htm : tm.RoundTrip) :
    applyClassified tm snap nowIso (applyClassified tm snap nowIso s c) c =
      bumpSpec nowIso c (applyClassified tm snap nowIso s c) := by
  cases c with
  | short b => exact handleShortResponse_idem s b
  | staticResp => rfl
  | malformed => rfl
  | apiError => rfl
  | valid d => exact processValidResponse_idem tm snap s d htm

/-- C9 witness: the idempotence equality at a concrete state for a static
classification, and for a concrete valid response. -/
theorem applyClassified_idempotent_witness :
    (applyClassified tm0 none "now" (applyClassified tm0 none "now" wState .staticResp)
        .staticResp =
      bumpSpec "now" Classified.staticResp (applyClassified tm0 none "now" wState .staticResp)) ∧
    (applyClassified tm0 none "now" (applyClassified tm0 none "now" wState (.valid wResp))
        (.valid wResp) =
      bumpSpec "now" (Classified.valid wResp)
        (applyClassified tm0 none "now" wState (.valid wResp))) :=
  ⟨applyClassified_idempotent tm0 none "now" wState .staticResp tm0_roundTrip,
   applyClassified_idempotent tm0 none "now" wState (.valid wResp) tm0_roundTrip⟩

end Trano
